import Mathlib

/-!
# SmartCalendar — shallow embedding of `src/events.py`

This file embeds the data model and operations of `events.py` (classes
`Events`, `Month`, `DataController`) and proves properties about them.

Modelling conventions:
* Python `datetime.datetime` values are records of six integers
  (year, month, day, hour, minute, second).
* The `Events` class defines no `__eq__`, so Python's `==` (and hence
  `in`, `list.remove`, `list.index`) compares by object identity.  We
  model object identity with an explicit `oid : Nat` field; Python's
  default equality is `oid` equality.  Within any state realizable in
  Python, two live objects with the same identity are the same object
  (same fields).
* Exceptions are modelled with `Except PyErr`; a raised exception
  propagates to the caller.  `Month.add_event` raises before mutating,
  so the `Except` model (state unchanged on error) is faithful.
* File I/O and YAML decoding are external collaborators: `_start_up`
  is modelled over the list of already-decoded per-file documents
  (`Option Rec`; `none` is an empty/null document, for which
  `yaml.safe_load` returns `None` and the code's `if not data` check
  fires).  Date/time strings produced by `strftime` are modelled by
  records of the integers the format renders (`%Y-%m-%d` renders
  exactly year, month, day, etc.), and `strptime` fills unrendered
  components with Python's defaults 1900-01-01 00:00:00.
-/

/-- A Python `datetime.datetime` value (microseconds are never touched
by the program and are omitted). -/
structure DateTime where
  year : Int
  month : Int
  day : Int
  hour : Int
  minute : Int
  second : Int
deriving DecidableEq, Repr

/-- The eleven data fields set by `Events.__init__`. -/
structure EventData where
  event_id : Int
  event_name : String
  event_description : String
  event_date : DateTime
  event_time : Option DateTime
  event_location : Option String
  event_type : Option String
  event_status : Option String
  event_priority : Option Int
  event_notes : Option String
  event_reminder : Option DateTime
deriving DecidableEq, Repr

/-- A live `Events` object: its Python identity (`oid`, as returned by
`id()`) together with its fields. -/
structure Events where
  oid : Nat
  data : EventData
deriving DecidableEq, Repr

/-- `Events.get_month`: `self.event_date.month`. -/
def Events.get_month (e : Events) : Int := e.data.event_date.month

/-- `Events.get_year`: `self.event_date.year`. -/
def Events.get_year (e : Events) : Int := e.data.event_date.year

/-- Python `==` on `Events`: the class defines no `__eq__`, so the
default object-identity comparison applies. -/
def pyEq (a b : Events) : Bool := a.oid == b.oid

/-- Python `event in list` for a list of `Events`. -/
def pyContains (l : List Events) (e : Events) : Bool := l.any (fun x => pyEq x e)

/-- Python `list.remove(e)`: removes the first element equal to `e`. -/
def pyRemove : List Events → Events → List Events
  | [], _ => []
  | x :: xs, e => if pyEq x e then xs else x :: pyRemove xs e

/-- Python `list[list.index(e)] = e`: replaces the first element equal
to `e` by `e` itself (the combination performed by
`Month.update_event`). -/
def pySetFirst : List Events → Events → List Events
  | [], _ => []
  | x :: xs, e => if pyEq x e then e :: xs else x :: pySetFirst xs e

/-- The exceptions the program raises.  `validation` and `duplicate`
are the two distinct `ValueError`s of `Month.add_event` (the spec's
ValidationError / DuplicateError), `notFound` the `ValueError` of the
remove/update paths (NotFoundError), `keyError` a `KeyError` from a
missing mapping key during `_start_up`. -/
inductive PyErr where
  | validation
  | duplicate
  | notFound
  | keyError
deriving DecidableEq, Repr

/-- A `Month` object: `_month`, `_year`, `_events`. -/
structure Month where
  month : Int
  year : Int
  events : List Events
deriving DecidableEq, Repr

/-- `Month.add_event`: `ValueError` when the event's derived month/year
disagrees with the bucket's, `ValueError` when an event with the same
`event_id` is already present, otherwise append.  (The `type(event)`
check cannot fail in the embedding: every value of type `Events` is an
`Events`.) -/
def Month.add_event (mo : Month) (e : Events) : Except PyErr Month :=
  if e.get_month ≠ mo.month ∨ e.get_year ≠ mo.year then
    .error .validation
  else if mo.events.any (fun x => x.data.event_id == e.data.event_id) then
    .error .duplicate
  else
    .ok { mo with events := mo.events ++ [e] }

/-- `Month.remove_event`: `ValueError` when `event not in self._events`
(membership by Python `==`, i.e. identity), otherwise
`self._events.remove(event)`. -/
def Month.remove_event (mo : Month) (e : Events) : Except PyErr Month :=
  if ¬ pyContains mo.events e then .error .notFound
  else .ok { mo with events := pyRemove mo.events e }

/-- `Month.update_event`: `ValueError` when absent, otherwise
`self._events[self._events.index(event)] = event`. -/
def Month.update_event (mo : Month) (e : Events) : Except PyErr Month :=
  if ¬ pyContains mo.events e then .error .notFound
  else .ok { mo with events := pySetFirst mo.events e }

namespace DataController

/-- `DataController.add_event`: scan `self._months` for the first
bucket whose (month, year) equals the event's derived (month, year);
raise if the event is already there (by identity), else delegate to
the bucket's `add_event`; when no bucket matches, create one holding
the event and append it at the end. -/
def add_event : List Month → Events → Except PyErr (List Month)
  | [], e =>
      (Month.add_event ⟨e.get_month, e.get_year, []⟩ e).map (fun nm => [nm])
  | mo :: rest, e =>
      if mo.month = e.get_month ∧ mo.year = e.get_year then
        if pyContains mo.events e then .error .duplicate
        else (mo.add_event e).map (· :: rest)
      else
        (add_event rest e).map (mo :: ·)

/-- `DataController.remove_event`: scan for a bucket with matching
(month, year) that contains the event (by identity); delegate removal
there; raise `ValueError` when the scan finds none. -/
def remove_event : List Month → Events → Except PyErr (List Month)
  | [], _ => .error .notFound
  | mo :: rest, e =>
      if (mo.month = e.get_month ∧ mo.year = e.get_year) ∧ pyContains mo.events e then
        (mo.remove_event e).map (· :: rest)
      else
        (remove_event rest e).map (mo :: ·)

/-- `DataController.update_event`: same scan as `remove_event`,
delegating to the bucket's `update_event`. -/
def update_event : List Month → Events → Except PyErr (List Month)
  | [], _ => .error .notFound
  | mo :: rest, e =>
      if (mo.month = e.get_month ∧ mo.year = e.get_year) ∧ pyContains mo.events e then
        (mo.update_event e).map (· :: rest)
      else
        (update_event rest e).map (mo :: ·)

/-- `DataController.get_events`: the event list of the first bucket
with matching (month, year), else `[]`. -/
def get_events : List Month → Int → Int → List Events
  | [], _, _ => []
  | mo :: rest, m, y =>
      if mo.month = m ∧ mo.year = y then mo.events else get_events rest m y

end DataController

/-! ## Persistence: `_start_up` and `shut_down`

A persisted per-month YAML document has top-level keys `month`, `year`
and `events`.  `_start_up` reads each document, skips it when
`yaml.safe_load` returned a falsy value (`if not data`) or when its
(year, month) falls lexicographically outside the computed window, and
otherwise builds a `Month` from it, parsing every event and adding it
with `Month.add_event`.  There is no `try`/`except`: a missing mapping
key (`KeyError`) or a failed `add_event` propagates out of
`_start_up`, aborting the load. -/

/-- The integers rendered by `strftime("%Y-%m-%d")`. -/
structure DateStr where
  y : Int
  m : Int
  d : Int
deriving DecidableEq, Repr

/-- The integers rendered by `strftime("%H:%M")`. -/
structure TimeStr where
  h : Int
  min : Int
deriving DecidableEq, Repr

/-- The integers rendered by `strftime("%Y-%m-%d %H:%M")`. -/
structure RemStr where
  y : Int
  m : Int
  d : Int
  h : Int
  min : Int
deriving DecidableEq, Repr

/-- One decoded event mapping of a persisted document.  The optional
fields are `None`-able in the YAML; the code's `if event_data[...]`
truth tests treat `None` as falsy and every rendered string as
truthy. -/
structure RawEvent where
  event_id : Int
  event_name : String
  event_description : String
  event_date : DateStr
  event_time : Option TimeStr
  event_location : Option String
  event_type : Option String
  event_status : Option String
  event_priority : Option Int
  event_notes : Option String
  event_reminder : Option RemStr
deriving DecidableEq, Repr

/-- One decoded persisted document: keys `month` and `year`, and the
`events` sequence when the key is present (`none` models a document
without an `events` key, where `data["events"]` raises `KeyError`). -/
structure Rec where
  month : Int
  year : Int
  events : Option (List RawEvent)
deriving DecidableEq, Repr

/-- Python `x or 12` for an integer `x`: `12` when `x` is falsy (zero). -/
def pyOr12 (x : Int) : Int := if x = 0 then 12 else x

/-- `start_month = (current_month - 2) % 12 or 12` (Python `%` agrees
with Lean's `%` on `Int` for a positive modulus). -/
def startMonth (cm : Int) : Int := pyOr12 ((cm - 2) % 12)

/-- `start_year = current_year if current_month > 2 else current_year - 1`. -/
def startYear (cm cy : Int) : Int := if cm > 2 then cy else cy - 1

/-- `end_month = (current_month + 2) % 12 or 12`. -/
def endMonth (cm : Int) : Int := pyOr12 ((cm + 2) % 12)

/-- `end_year = current_year if current_month <= 10 else current_year + 1`. -/
def endYear (cm cy : Int) : Int := if cm ≤ 10 then cy else cy + 1

/-- The `_start_up` skip condition for a document with fields
`m`/`y`, given the current month `cm` and year `cy`. -/
def skipRec (cm cy m y : Int) : Prop :=
  y < startYear cm cy ∨ (y = startYear cm cy ∧ m < startMonth cm) ∨
  y > endYear cm cy ∨ (y = endYear cm cy ∧ m > endMonth cm)

instance (cm cy m y : Int) : Decidable (skipRec cm cy m y) := by
  unfold skipRec; infer_instance

/-- `strptime(s, "%Y-%m-%d")`: unrendered components default to
1900-01-01 00:00:00, so the parsed datetime sits at midnight. -/
def parseDate (s : DateStr) : DateTime := ⟨s.y, s.m, s.d, 0, 0, 0⟩

/-- `strptime(s, "%H:%M")`: the date components default to 1900-01-01. -/
def parseTime (s : TimeStr) : DateTime := ⟨1900, 1, 1, s.h, s.min, 0⟩

/-- `strptime(s, "%Y-%m-%d %H:%M")`: seconds default to zero. -/
def parseRem (s : RemStr) : DateTime := ⟨s.y, s.m, s.d, s.h, s.min, 0⟩

/-- The `Events(...)` construction inside `_start_up`, applied to one
decoded event mapping; `n` is the identity of the freshly allocated
object. -/
def parseEvent (n : Nat) (re : RawEvent) : Events :=
  ⟨n, { event_id := re.event_id
        event_name := re.event_name
        event_description := re.event_description
        event_date := parseDate re.event_date
        event_time := re.event_time.map parseTime
        event_location := re.event_location
        event_type := re.event_type
        event_status := re.event_status
        event_priority := re.event_priority
        event_notes := re.event_notes
        event_reminder := re.event_reminder.map parseRem }⟩

/-- The inner loop of `_start_up`: add each parsed event to the month
under construction, threading the supply of fresh object identities.
A failing `add_event` propagates. -/
def buildMonth (mo : Month) : List RawEvent → Nat → Except PyErr (Month × Nat)
  | [], n => .ok (mo, n)
  | re :: rest, n => do
      let mo' ← mo.add_event (parseEvent n re)
      buildMonth mo' rest (n + 1)

/-- The file loop of `_start_up` over the decoded documents, given the
current (month, year); `n` is the fresh-identity supply.  A falsy
document or an out-of-window document is skipped; an in-window
document without an `events` key raises `KeyError`; event parsing
failures propagate. -/
def startUpAux (cm cy : Int) : List (Option Rec) → Nat → Except PyErr (List Month)
  | [], _ => .ok []
  | none :: rest, n => startUpAux cm cy rest n
  | some r :: rest, n =>
      if skipRec cm cy r.month r.year then startUpAux cm cy rest n
      else
        match r.events with
        | none => .error .keyError
        | some evs => do
            let (mo, n') ← buildMonth ⟨r.month, r.year, []⟩ evs n
            let ms ← startUpAux cm cy rest n'
            pure (mo :: ms)

/-- `DataController._start_up` on a fresh controller (`self._months`
empty), over the decoded documents found in `data_storage`, with the
current date's month `cm` and year `cy`. -/
def startUp (cm cy : Int) (recs : List (Option Rec)) : Except PyErr (List Month) :=
  startUpAux cm cy recs 0

/-- `print_date`, as used by `shut_down`. -/
def serDate (d : DateTime) : DateStr := ⟨d.year, d.month, d.day⟩

/-- `print_time` on a present time: `strftime("%H:%M")`. -/
def serTime (d : DateTime) : TimeStr := ⟨d.hour, d.minute⟩

/-- `strftime("%Y-%m-%d %H:%M")` on a present reminder. -/
def serRem (d : DateTime) : RemStr := ⟨d.year, d.month, d.day, d.hour, d.minute⟩

/-- The event mapping written by `shut_down` for one event. -/
def serEvent (e : Events) : RawEvent :=
  { event_id := e.data.event_id
    event_name := e.data.event_name
    event_description := e.data.event_description
    event_date := serDate e.data.event_date
    event_time := e.data.event_time.map serTime
    event_location := e.data.event_location
    event_type := e.data.event_type
    event_status := e.data.event_status
    event_priority := e.data.event_priority
    event_notes := e.data.event_notes
    event_reminder := e.data.event_reminder.map serRem }

/-- The document written by `shut_down` for one month. -/
def serMonth (mo : Month) : Rec :=
  { month := mo.month, year := mo.year
    events := some (mo.events.map serEvent) }

/-- `DataController.shut_down`: one document per in-memory month, in
list order.  Each document is written to a file named from the
bucket's English month name and year, so this list models the stored
documents only for bucket lists whose (month, year) keys are pairwise
distinct and whose months lie in 1..12: two same-keyed buckets write
to the same file (the later `open(..., 'w')` overwrites the earlier
document), and a month outside 1..12 makes `date(1900, month, 1)`
raise.  Theorems composing `shutDown` with `startUp` therefore carry
those two hypotheses. -/
def shutDown (ms : List Month) : List Rec := ms.map serMonth

/-! ## Derived notions used in the statements -/

/-- The events built by the `_start_up` inner loop, with their fresh
identities `n, n+1, ...`. -/
def parseEvents : Nat → List RawEvent → List Events
  | _, [] => []
  | n, re :: rest => parseEvent n re :: parseEvents (n + 1) rest

/-- At most one bucket per distinct (month, year). -/
def uniqueKeys (ms : List Month) : Prop :=
  (ms.map fun mo => (mo.month, mo.year)).Nodup

instance (ms : List Month) : Decidable (uniqueKeys ms) := by
  unfold uniqueKeys; infer_instance

/-- The (month, year) keys of the buckets, in order. -/
def keysOf (ms : List Month) : List (Int × Int) :=
  ms.map fun mo => (mo.month, mo.year)

/-- How many stored events across all buckets are the given object
(Python identity). -/
def occCount (ms : List Month) (e : Events) : Nat :=
  (ms.map fun mo => mo.events.countP (fun x => pyEq x e)).sum

/-- A bucket's observable content, with object identities erased:
its key and the field values of its events in order. -/
def monthData (mo : Month) : Int × Int × List EventData :=
  (mo.month, mo.year, mo.events.map fun e => e.data)

/-- The bucket invariant: every contained event's derived (month,
year) is the bucket's, and event ids are pairwise distinct. -/
def wfMonth (mo : Month) : Prop :=
  (∀ x ∈ mo.events, x.get_month = mo.month ∧ x.get_year = mo.year) ∧
  (mo.events.map fun x => x.data.event_id).Nodup

/-- A well-formed persisted document: it has an `events` key, the
events' dates carry the document's (month, year) (so `add_event`
accepts them), and their ids are pairwise distinct. -/
def wfRec (r : Rec) : Prop :=
  ∃ evs, r.events = some evs ∧
    (∀ re ∈ evs, re.event_date.m = r.month ∧ re.event_date.y = r.year) ∧
    (evs.map fun re => re.event_id).Nodup

/-- A datetime that carries only what `"%Y-%m-%d"` renders. -/
def normDate (d : DateTime) : Prop := d.hour = 0 ∧ d.minute = 0 ∧ d.second = 0

/-- A datetime that carries only what `"%H:%M"` renders (the
`strptime` defaults elsewhere). -/
def normTime (d : DateTime) : Prop :=
  d.year = 1900 ∧ d.month = 1 ∧ d.day = 1 ∧ d.second = 0

/-- A datetime that carries only what `"%Y-%m-%d %H:%M"` renders. -/
def normRem (d : DateTime) : Prop := d.second = 0

/-- Event fields already in the precision the persistence format can
represent. -/
def normEvent (e : EventData) : Prop :=
  normDate e.event_date ∧ (∀ t ∈ e.event_time, normTime t) ∧
  (∀ r ∈ e.event_reminder, normRem r)

instance (mo : Month) : Decidable (wfMonth mo) := by
  unfold wfMonth Events.get_month Events.get_year; infer_instance

instance (e : EventData) : Decidable (normEvent e) := by
  unfold normEvent normDate normTime normRem; infer_instance

/-! ## Concrete sample data (the demo `Soccer` event) -/

/-- The field values of the demo event `event1`, with its datetimes in
persistable precision except `event_time`, which carries its full
calendar date as in the demo code. -/
def sampleData : EventData :=
  { event_id := 1
    event_name := "Soccer"
    event_description := "Soccer game"
    event_date := ⟨2023, 1, 15, 0, 0, 0⟩
    event_time := some ⟨2023, 1, 15, 10, 0, 0⟩
    event_location := some "Stadium"
    event_type := some "Sport"
    event_status := some "Confirmed"
    event_priority := some 1
    event_notes := some "Bring water"
    event_reminder := some ⟨2023, 1, 14, 0, 0, 0⟩ }

/-- A live object holding `sampleData`. -/
def sampleEv : Events := ⟨0, sampleData⟩

/-- A distinct object (different identity) with exactly the same
field values. -/
def sampleTwin : Events := ⟨1, sampleData⟩

/-- A one-bucket state holding the demo event. -/
def rtState : List Month := [⟨1, 2023, [sampleEv]⟩]

/-- A document for month `m` of 2023 with an empty `events` list. -/
def emptyRec (m : Int) : Rec := ⟨m, 2023, some []⟩

/-- A document for June 2023 without an `events` key. -/
def noEventsRec : Rec := ⟨6, 2023, none⟩

/-- Twelve documents, one per month of 2023. -/
def recs12 : List Rec :=
  [emptyRec 1, emptyRec 2, emptyRec 3, emptyRec 4, emptyRec 5, emptyRec 6,
   emptyRec 7, emptyRec 8, emptyRec 9, emptyRec 10, emptyRec 11, emptyRec 12]

/-- The Soccer event's fields with `event_time` already in persistable
precision (its calendar part at the `strptime` default 1900-01-01). -/
def sampleDataNorm : EventData :=
  { sampleData with event_time := some ⟨1900, 1, 1, 10, 0, 0⟩ }

/-- A one-bucket state holding the normalized Soccer event. -/
def normState : List Month := [⟨1, 2023, [⟨0, sampleDataNorm⟩]⟩]

/-! ## Theorems -/

/-- Reduction of `Except` bind on a success value. -/
@[simp] lemma except_bind_ok {α β : Type} (a : α) (f : α → Except PyErr β) :
    (Except.ok a >>= f) = f a := rfl

/-- Reduction of `Except` bind on a raised exception. -/
@[simp] lemma except_bind_err {α β : Type} (e : PyErr) (f : α → Except PyErr β) :
    ((Except.error e : Except PyErr α) >>= f) = .error e := rfl

/-- Reduction of `Except` functorial map on a success value. -/
@[simp] lemma except_fmap_ok {α β : Type} (f : α → β) (a : α) :
    (f <$> (Except.ok a : Except PyErr α)) = .ok (f a) := rfl

/-- Reduction of `Except` functorial map on a raised exception. -/
@[simp] lemma except_fmap_err {α β : Type} (f : α → β) (e : PyErr) :
    (f <$> (Except.error e : Except PyErr α)) = .error e := rfl

/-- C5: adding an event whose derived (month, year) disagrees with the
bucket's always raises the validation `ValueError`.  The raise happens
before the append in the source, so the bucket is untouched — in the
exception model the state is simply not replaced. -/
theorem month_add_event_mismatch (mo : Month) (e : Events)
    (h : e.get_month ≠ mo.month ∨ e.get_year ≠ mo.year) :
    mo.add_event e = .error .validation := by
  unfold Month.add_event
  rw [if_pos h]

/-- Witness for `month_add_event_mismatch`: the demo Soccer event
(January 2023) against a February 2023 bucket. -/
theorem month_add_event_mismatch_witness :
    (sampleEv.get_month ≠ (2 : Int) ∨ sampleEv.get_year ≠ (2023 : Int)) ∧
    Month.add_event ⟨2, 2023, []⟩ sampleEv = .error .validation :=
  ⟨by decide, month_add_event_mismatch ⟨2, 2023, []⟩ sampleEv (by decide)⟩

/-- C6: with a bucket not yet holding the shared id, adding the first
of two same-id, key-matching events succeeds and appends it; adding
the second then raises the duplicate `ValueError`, leaving the bucket
with the first only. -/
theorem month_add_event_duplicate_id (mo : Month) (e1 e2 : Events)
    (hid : e2.data.event_id = e1.data.event_id)
    (h1m : e1.get_month = mo.month) (h1y : e1.get_year = mo.year)
    (h2m : e2.get_month = mo.month) (h2y : e2.get_year = mo.year)
    (hfresh : ∀ x ∈ mo.events, x.data.event_id ≠ e1.data.event_id) :
    mo.add_event e1 = .ok { mo with events := mo.events ++ [e1] } ∧
    Month.add_event { mo with events := mo.events ++ [e1] } e2 = .error .duplicate := by
  have hany : mo.events.any (fun x => x.data.event_id == e1.data.event_id) = false := by
    rw [List.any_eq_false]
    intro x hx
    simpa using hfresh x hx
  constructor
  · unfold Month.add_event
    rw [if_neg (by simp [h1m, h1y]), hany]
    simp
  · unfold Month.add_event
    rw [if_neg (by simp [h2m, h2y])]
    simp [hid]

/-- Witness for `month_add_event_duplicate_id`: the Soccer event and
its equal-fields twin (both id 1, January 2023) against an empty
January 2023 bucket. -/
theorem month_add_event_duplicate_id_witness :
    Month.add_event ⟨1, 2023, []⟩ sampleEv = .ok ⟨1, 2023, [sampleEv]⟩ ∧
    Month.add_event ⟨1, 2023, [sampleEv]⟩ sampleTwin = .error .duplicate :=
  month_add_event_duplicate_id ⟨1, 2023, []⟩ sampleEv sampleTwin rfl rfl rfl rfl rfl
    (by intro x hx; simp at hx)

/-- C7: when no bucket matches the event's derived (month, year), the
controller's `add_event` creates one holding the event and appends it;
`get_events` at that key then returns exactly that event. -/
theorem ctrl_add_event_creates_bucket (ms : List Month) (e : Events)
    (h : ∀ mo ∈ ms, ¬(mo.month = e.get_month ∧ mo.year = e.get_year)) :
    DataController.add_event ms e = .ok (ms ++ [⟨e.get_month, e.get_year, [e]⟩]) ∧
    DataController.get_events (ms ++ [⟨e.get_month, e.get_year, [e]⟩])
      e.get_month e.get_year = [e] := by
  constructor
  · induction ms with
    | nil => simp [DataController.add_event, Month.add_event, Except.map]
    | cons mo rest ih =>
        have hmo := h mo (List.mem_cons_self mo rest)
        rw [List.cons_append, DataController.add_event, if_neg hmo,
          ih fun x hx => h x (List.mem_cons_of_mem mo hx)]
        rfl
  · induction ms with
    | nil => simp [DataController.get_events]
    | cons mo rest ih =>
        have hmo := h mo (List.mem_cons_self mo rest)
        rw [List.cons_append, DataController.get_events, if_neg hmo]
        exact ih fun x hx => h x (List.mem_cons_of_mem mo hx)

/-- Witness for `ctrl_add_event_creates_bucket`: the demo Soccer event
added to the empty controller, then `get_events 1 2023`. -/
theorem ctrl_add_event_creates_bucket_witness :
    DataController.add_event [] sampleEv = .ok [⟨1, 2023, [sampleEv]⟩] ∧
    DataController.get_events [⟨1, 2023, [sampleEv]⟩] 1 2023 = [sampleEv] :=
  ctrl_add_event_creates_bucket [] sampleEv (by intro mo hmo; simp at hmo)

/-- C2 counterexample: a distinct object whose eleven fields all equal
those of the stored Soccer event is *not* treated as present —
`remove_event` and `update_event` both raise the not-found
`ValueError`, because `Events` defines no `__eq__` and Python's `in`,
`list.remove` and `list.index` fall back to object identity. -/
theorem month_remove_twin_not_found :
    sampleTwin.data = sampleEv.data ∧ sampleTwin ≠ sampleEv ∧
    Month.remove_event ⟨1, 2023, [sampleEv]⟩ sampleTwin = .error .notFound ∧
    Month.update_event ⟨1, 2023, [sampleEv]⟩ sampleTwin = .error .notFound :=
  ⟨rfl, by decide, rfl, rfl⟩

/-- C2 amended: membership as used by `remove_event` and
`update_event` holds exactly when some contained event is the *same
object* (Python identity); when no contained event is the argument
itself — even if one is field-for-field equal — both operations raise
the not-found `ValueError`. -/
theorem month_membership_is_identity (mo : Month) (e : Events) :
    (pyContains mo.events e = true ↔ ∃ x ∈ mo.events, x.oid = e.oid) ∧
    ((∀ x ∈ mo.events, x.oid ≠ e.oid) →
      mo.remove_event e = .error .notFound ∧
      mo.update_event e = .error .notFound) := by
  have hiff : pyContains mo.events e = true ↔ ∃ x ∈ mo.events, x.oid = e.oid := by
    simp [pyContains, pyEq, List.any_eq_true]
  refine ⟨hiff, fun h => ?_⟩
  have habs : ¬ (pyContains mo.events e = true) := by
    rw [hiff]
    push_neg
    exact h
  constructor
  · unfold Month.remove_event
    rw [if_pos habs]
  · unfold Month.update_event
    rw [if_pos habs]

/-- Witness for `month_membership_is_identity`: the stored Soccer
event and its equal-fields twin. -/
theorem month_membership_is_identity_witness :
    Month.remove_event ⟨1, 2023, [sampleEv]⟩ sampleTwin = .error .notFound ∧
    Month.update_event ⟨1, 2023, [sampleEv]⟩ sampleTwin = .error .notFound :=
  (month_membership_is_identity ⟨1, 2023, [sampleEv]⟩ sampleTwin).2 (by decide)

/-- Replacing the first identity-equal element by the argument leaves
the list unchanged, whenever identity determines the object (which it
does for live Python objects). -/
lemma pySetFirst_eq_self (l : List Events) (e : Events)
    (h : ∀ x ∈ l, x.oid = e.oid → x = e) : pySetFirst l e = l := by
  induction l with
  | nil => rfl
  | cons x xs ih =>
      unfold pySetFirst
      by_cases hx : pyEq x e = true
      · rw [if_pos hx, h x (List.mem_cons_self x xs) (by simpa [pyEq] using hx)]
      · rw [if_neg hx, ih fun y hy => h y (List.mem_cons_of_mem x hy)]

/-- A successful bucket-level update leaves the bucket unchanged. -/
lemma month_update_ok (mo : Month) (e : Events) (mo' : Month)
    (h : ∀ x ∈ mo.events, x.oid = e.oid → x = e)
    (hu : mo.update_event e = .ok mo') : mo' = mo := by
  unfold Month.update_event at hu
  split_ifs at hu
  cases hu
  rw [pySetFirst_eq_self mo.events e h]

/-- A successful controller-level update leaves the whole bucket list
unchanged. -/
lemma ctrl_update_ok (e : Events) :
    ∀ ms : List Month, (∀ mo ∈ ms, ∀ x ∈ mo.events, x.oid = e.oid → x = e) →
      ∀ ms', DataController.update_event ms e = .ok ms' → ms' = ms := by
  intro ms
  induction ms with
  | nil => intro _ ms' hu; simp [DataController.update_event] at hu
  | cons mo rest ih =>
      intro h ms' hu
      rw [DataController.update_event] at hu
      split_ifs at hu with hcond
      · cases hmo : mo.update_event e with
        | error err => rw [hmo] at hu; simp [Except.map] at hu
        | ok mo' =>
            rw [hmo] at hu
            simp only [Except.map, Except.ok.injEq] at hu
            rw [← hu, month_update_ok mo e mo' (h mo (List.mem_cons_self mo rest)) hmo]
      · cases hrest : DataController.update_event rest e with
        | error err => rw [hrest] at hu; simp [Except.map] at hu
        | ok rest' =>
            rw [hrest] at hu
            simp only [Except.map, Except.ok.injEq] at hu
            rw [← hu, ih (fun x hx => h x (List.mem_cons_of_mem mo hx)) rest' hrest]

/-- C10: a successful `update_event` — at the bucket or at the
controller — leaves the stored lists exactly as they were: the entry
it replaces is located by Python `==`, which is object identity here,
so the element overwritten is the argument itself.  The hypothesis
states the realizability fact that a stored object with the
argument's identity *is* the argument (distinct live Python objects
have distinct identities). -/
theorem update_event_preserves_state :
    (∀ (mo : Month) (e : Events) (mo' : Month),
      (∀ x ∈ mo.events, x.oid = e.oid → x = e) →
      mo.update_event e = .ok mo' → mo'.events = mo.events) ∧
    (∀ (ms : List Month) (e : Events) (ms' : List Month),
      (∀ mo ∈ ms, ∀ x ∈ mo.events, x.oid = e.oid → x = e) →
      DataController.update_event ms e = .ok ms' → ms' = ms) := by
  constructor
  · intro mo e mo' h hu
    rw [month_update_ok mo e mo' h hu]
  · intro ms e ms' h hu
    exact ctrl_update_ok e ms h ms' hu

/-- Witness for `update_event_preserves_state`: updating the stored
Soccer event with itself. -/
theorem update_event_preserves_state_witness :
    DataController.update_event [⟨1, 2023, [sampleEv]⟩] sampleEv =
      .ok [⟨1, 2023, [sampleEv]⟩] ∧
    ([⟨1, 2023, [sampleEv]⟩] : List Month) = [⟨1, 2023, [sampleEv]⟩] :=
  ⟨rfl, update_event_preserves_state.2 [⟨1, 2023, [sampleEv]⟩] sampleEv
    [⟨1, 2023, [sampleEv]⟩] (by decide) rfl⟩

/-- Whatever `get_events` returns is some bucket's event list. -/
lemma getEvents_mem (ms : List Month) (m y : Int) (x : Events)
    (hx : x ∈ DataController.get_events ms m y) : ∃ mo ∈ ms, x ∈ mo.events := by
  induction ms with
  | nil => simp [DataController.get_events] at hx
  | cons mo rest ih =>
      rw [DataController.get_events] at hx
      split_ifs at hx with h
      · exact ⟨mo, List.mem_cons_self mo rest, hx⟩
      · obtain ⟨mo', h1, h2⟩ := ih hx
        exact ⟨mo', List.mem_cons_of_mem mo h1, h2⟩

/-- Python membership in terms of the identity-match count. -/
lemma pyContains_iff_countP (l : List Events) (e : Events) :
    pyContains l e = true ↔ 0 < l.countP (fun x => pyEq x e) := by
  rw [pyContains, List.any_eq_true, List.countP_pos_iff]

/-- `list.remove` removes exactly one identity-match. -/
lemma pyRemove_countP (l : List Events) (e : Events) (h : pyContains l e = true) :
    (pyRemove l e).countP (fun x => pyEq x e) =
      l.countP (fun x => pyEq x e) - 1 := by
  induction l with
  | nil => simp [pyContains] at h
  | cons x xs ih =>
      unfold pyRemove
      by_cases hx : pyEq x e = true
      · rw [if_pos hx, List.countP_cons, hx]
        simp
      · have hxs : pyContains xs e = true := by
          rcases (List.any_eq_true.1 h) with ⟨y, hy, hye⟩
          rcases List.mem_cons.1 hy with rfl | hy'
          · exact absurd hye hx
          · exact List.any_eq_true.2 ⟨y, hy', hye⟩
        have hpos := (pyContains_iff_countP xs e).1 hxs
        rw [if_neg hx, List.countP_cons, List.countP_cons, ih hxs, if_neg hx]
        omega

/-- A successful controller-level removal found an identity-match
somewhere. -/
lemma ctrl_remove_ok_pos (e : Events) :
    ∀ ms : List Month, ∀ ms', DataController.remove_event ms e = .ok ms' →
      1 ≤ occCount ms e := by
  intro ms
  induction ms with
  | nil => intro ms' h; simp [DataController.remove_event] at h
  | cons mo rest ih =>
      intro ms' h
      rw [DataController.remove_event] at h
      split_ifs at h with hcond
      · have := (pyContains_iff_countP mo.events e).1 hcond.2
        unfold occCount
        simp only [List.map_cons, List.sum_cons]
        omega
      · cases hrest : DataController.remove_event rest e with
        | error err => rw [hrest] at h; simp [Except.map] at h
        | ok rest' =>
            have := ih rest' hrest
            unfold occCount at this ⊢
            simp only [List.map_cons, List.sum_cons]
            omega

/-- After a successful controller-level removal from a state holding
at most one occurrence of the object, no bucket holds it. -/
lemma ctrl_remove_result (e : Events) :
    ∀ ms : List Month, occCount ms e ≤ 1 →
      ∀ ms', DataController.remove_event ms e = .ok ms' →
      ∀ mo ∈ ms', ∀ x ∈ mo.events, x.oid ≠ e.oid := by
  intro ms
  induction ms with
  | nil => intro _ ms' h; simp [DataController.remove_event] at h
  | cons mo rest ih =>
      intro hocc ms' h
      rw [DataController.remove_event] at h
      split_ifs at h with hcond
      · obtain ⟨hkey, hcont⟩ := hcond
        unfold Month.remove_event at h
        rw [if_neg (not_not_intro hcont)] at h
        simp only [Except.map, Except.ok.injEq] at h
        have hcnt1 : mo.events.countP (fun x => pyEq x e) = 1 := by
          have hpos := (pyContains_iff_countP mo.events e).1 hcont
          have : occCount (mo :: rest) e =
              mo.events.countP (fun x => pyEq x e) + occCount rest e := by
            unfold occCount
            simp [List.map_cons, List.sum_cons]
          omega
        have hrest0 : occCount rest e = 0 := by
          have : occCount (mo :: rest) e =
              mo.events.countP (fun x => pyEq x e) + occCount rest e := by
            unfold occCount
            simp [List.map_cons, List.sum_cons]
          omega
        intro mo' hmo' x hx
        rw [← h] at hmo'
        rcases List.mem_cons.1 hmo' with rfl | hmo''
        · have : (pyRemove mo.events e).countP (fun x => pyEq x e) = 0 := by
            rw [pyRemove_countP mo.events e hcont, hcnt1]
          have habs := (List.countP_eq_zero.1 this) x hx
          simpa [pyEq] using habs
        · have hmo0 : mo'.events.countP (fun x => pyEq x e) = 0 := by
            unfold occCount at hrest0
            have := List.sum_eq_zero_iff.1 hrest0
              (mo'.events.countP (fun x => pyEq x e))
              (List.mem_map.2 ⟨mo', hmo'', rfl⟩)
            exact this
          have habs := (List.countP_eq_zero.1 hmo0) x hx
          simpa [pyEq] using habs
      · cases hrest : DataController.remove_event rest e with
        | error err => rw [hrest] at h; simp [Except.map] at h
        | ok rest' =>
            rw [hrest] at h
            simp only [Except.map, Except.ok.injEq] at h
            have hpos := ctrl_remove_ok_pos e rest rest' hrest
            have hsplit : occCount (mo :: rest) e =
                mo.events.countP (fun x => pyEq x e) + occCount rest e := by
              unfold occCount
              simp [List.map_cons, List.sum_cons]
            have hmo0 : mo.events.countP (fun x => pyEq x e) = 0 := by omega
            intro mo' hmo' x hx
            rw [← h] at hmo'
            rcases List.mem_cons.1 hmo' with rfl | hmo''
            · have habs := (List.countP_eq_zero.1 hmo0) x hx
              simpa [pyEq] using habs
            · exact ih (by omega) rest' hrest mo' hmo'' x hx

/-- C8: when `remove_event` succeeds on a state holding at most one
occurrence of the object — as every state reachable by the documented
operations does, since each live object is appended at most once —
the object is gone from every bucket and from every subsequent
`get_events` result. -/
theorem ctrl_remove_event_absent (ms : List Month) (e : Events) (ms' : List Month)
    (hocc : occCount ms e ≤ 1)
    (h : DataController.remove_event ms e = .ok ms') :
    (∀ mo ∈ ms', ∀ x ∈ mo.events, x.oid ≠ e.oid) ∧
    (∀ m y, ∀ x ∈ DataController.get_events ms' m y, x.oid ≠ e.oid) := by
  have h1 := ctrl_remove_result e ms hocc ms' h
  refine ⟨h1, fun m y x hx => ?_⟩
  obtain ⟨mo, hmo, hxmo⟩ := getEvents_mem ms' m y x hx
  exact h1 mo hmo x hxmo

/-- A successful bucket-level add never changes the bucket's key. -/
lemma month_add_event_ok_key (mo : Month) (e : Events) (mo' : Month)
    (h : mo.add_event e = .ok mo') : mo'.month = mo.month ∧ mo'.year = mo.year := by
  unfold Month.add_event at h
  split_ifs at h
  simp only [Except.ok.injEq] at h
  subst h
  exact ⟨rfl, rfl⟩

/-- How `add_event` changes the key list: either a bucket matched and
the keys are untouched, or no bucket matched and the event's key is
appended. -/
lemma ctrl_add_keys (e : Events) :
    ∀ ms ms', DataController.add_event ms e = .ok ms' →
      keysOf ms' = keysOf ms ∨
      (keysOf ms' = keysOf ms ++ [(e.get_month, e.get_year)] ∧
        ∀ mo ∈ ms, ¬(mo.month = e.get_month ∧ mo.year = e.get_year)) := by
  intro ms
  induction ms with
  | nil =>
      intro ms' h
      right
      unfold DataController.add_event Month.add_event at h
      rw [if_neg (by simp)] at h
      simp only [List.any_nil, Bool.false_eq_true, if_false, Except.map,
        Except.ok.injEq] at h
      refine ⟨?_, by simp⟩
      rw [← h]
      rfl
  | cons mo rest ih =>
      intro ms' h
      rw [DataController.add_event] at h
      split_ifs at h with hkey hcont
      · cases hadd : mo.add_event e with
        | error err => rw [hadd] at h; simp [Except.map] at h
        | ok mo' =>
            rw [hadd] at h
            simp only [Except.map, Except.ok.injEq] at h
            left
            obtain ⟨hm, hy⟩ := month_add_event_ok_key mo e mo' hadd
            rw [← h]
            unfold keysOf
            simp [hm, hy]
      · cases hrec : DataController.add_event rest e with
        | error err => rw [hrec] at h; simp [Except.map] at h
        | ok rest' =>
            rw [hrec] at h
            simp only [Except.map, Except.ok.injEq] at h
            rcases ih rest' hrec with hsame | ⟨happ, hnone⟩
            · left
              rw [← h]
              unfold keysOf at hsame ⊢
              simp [hsame]
            · right
              refine ⟨?_, ?_⟩
              · rw [← h]
                unfold keysOf at happ ⊢
                simp [happ]
              · intro x hx
                rcases List.mem_cons.1 hx with rfl | hx'
                · exact hkey
                · exact hnone x hx'

/-- A successful bucket-level removal never changes the bucket's key. -/
lemma month_remove_event_ok_key (mo : Month) (e : Events) (mo' : Month)
    (h : mo.remove_event e = .ok mo') : mo'.month = mo.month ∧ mo'.year = mo.year := by
  unfold Month.remove_event at h
  split_ifs at h
  simp only [Except.ok.injEq] at h
  subst h
  exact ⟨rfl, rfl⟩

/-- A successful bucket-level update never changes the bucket's key. -/
lemma month_update_event_ok_key (mo : Month) (e : Events) (mo' : Month)
    (h : mo.update_event e = .ok mo') : mo'.month = mo.month ∧ mo'.year = mo.year := by
  unfold Month.update_event at h
  split_ifs at h
  simp only [Except.ok.injEq] at h
  subst h
  exact ⟨rfl, rfl⟩

/-- `remove_event` never changes the key list. -/
lemma ctrl_remove_keys (e : Events) :
    ∀ ms ms', DataController.remove_event ms e = .ok ms' →
      keysOf ms' = keysOf ms := by
  intro ms
  induction ms with
  | nil => intro ms' h; simp [DataController.remove_event] at h
  | cons mo rest ih =>
      intro ms' h
      rw [DataController.remove_event] at h
      split_ifs at h with hcond
      · cases hr : mo.remove_event e with
        | error err => rw [hr] at h; simp [Except.map] at h
        | ok mo' =>
            rw [hr] at h
            simp only [Except.map, Except.ok.injEq] at h
            obtain ⟨hm, hy⟩ := month_remove_event_ok_key mo e mo' hr
            rw [← h]
            unfold keysOf
            simp [hm, hy]
      · cases hr : DataController.remove_event rest e with
        | error err => rw [hr] at h; simp [Except.map] at h
        | ok rest' =>
            rw [hr] at h
            simp only [Except.map, Except.ok.injEq] at h
            have := ih rest' hr
            rw [← h]
            unfold keysOf at this ⊢
            simp [this]

/-- `update_event` never changes the key list. -/
lemma ctrl_update_keys (e : Events) :
    ∀ ms ms', DataController.update_event ms e = .ok ms' →
      keysOf ms' = keysOf ms := by
  intro ms
  induction ms with
  | nil => intro ms' h; simp [DataController.update_event] at h
  | cons mo rest ih =>
      intro ms' h
      rw [DataController.update_event] at h
      split_ifs at h with hcond
      · cases hr : mo.update_event e with
        | error err => rw [hr] at h; simp [Except.map] at h
        | ok mo' =>
            rw [hr] at h
            simp only [Except.map, Except.ok.injEq] at h
            obtain ⟨hm, hy⟩ := month_update_event_ok_key mo e mo' hr
            rw [← h]
            unfold keysOf
            simp [hm, hy]
      · cases hr : DataController.update_event rest e with
        | error err => rw [hr] at h; simp [Except.map] at h
        | ok rest' =>
            rw [hr] at h
            simp only [Except.map, Except.ok.injEq] at h
            have := ih rest' hr
            rw [← h]
            unfold keysOf at this ⊢
            simp [this]

/-- The inner `_start_up` loop never changes the month's key. -/
lemma buildMonth_ok_key :
    ∀ (evs : List RawEvent) (mo : Month) (n : Nat) (mo' : Month) (n' : Nat),
      buildMonth mo evs n = .ok (mo', n') →
      mo'.month = mo.month ∧ mo'.year = mo.year := by
  intro evs
  induction evs with
  | nil =>
      intro mo n mo' n' h
      rw [buildMonth] at h
      cases h
      exact ⟨rfl, rfl⟩
  | cons re rest ih =>
      intro mo n mo' n' h
      rw [buildMonth] at h
      cases hadd : mo.add_event (parseEvent n re) with
      | error err => rw [hadd] at h; simp at h
      | ok mo1 =>
          rw [hadd] at h
          simp at h
          obtain ⟨h1, h2⟩ := month_add_event_ok_key mo (parseEvent n re) mo1 hadd
          obtain ⟨h3, h4⟩ := ih mo1 (n + 1) mo' n' h
          exact ⟨h3.trans h1, h4.trans h2⟩

/-- The keys of the loaded months form a sublist of the keys of the
decoded documents. -/
lemma startUpAux_keys (cm cy : Int) :
    ∀ (recs : List (Option Rec)) (n : Nat) (ms : List Month),
      startUpAux cm cy recs n = .ok ms →
      List.Sublist (keysOf ms) ((recs.filterMap id).map fun r => (r.month, r.year)) := by
  intro recs
  induction recs with
  | nil =>
      intro n ms h
      rw [startUpAux] at h
      cases h
      simp [keysOf]
  | cons r rest ih =>
      cases r with
      | none =>
          intro n ms h
          rw [startUpAux] at h
          simpa using ih n ms h
      | some rec =>
          intro n ms h
          have heq : ((some rec :: rest).filterMap id).map (fun r => (r.month, r.year)) =
              (rec.month, rec.year) :: (rest.filterMap id).map (fun r => (r.month, r.year)) := by
            simp
          rw [startUpAux] at h
          rw [heq]
          split_ifs at h with hskip
          · exact (ih n ms h).trans (List.sublist_cons_self _ _)
          · cases hrec : rec.events with
            | none => rw [hrec] at h; simp at h
            | some evs =>
                rw [hrec] at h
                simp only at h
                cases hbm : buildMonth ⟨rec.month, rec.year, []⟩ evs n with
                | error err => rw [hbm] at h; simp at h
                | ok p =>
                    obtain ⟨mo, n'⟩ := p
                    rw [hbm] at h
                    simp at h
                    cases hrest : startUpAux cm cy rest n' with
                    | error err => rw [hrest] at h; simp at h
                    | ok ms2 =>
                        rw [hrest] at h
                        simp at h
                        obtain ⟨hm, hy⟩ := buildMonth_ok_key evs _ n mo n' hbm
                        rw [← h]
                        show List.Sublist ((mo.month, mo.year) :: keysOf ms2) _
                        rw [hm, hy]
                        exact (ih n' ms2 hrest).cons₂ _

/-- C4 counterexample: two persisted documents carrying the same
(month, year) — both inside the window — are both loaded, leaving the
controller reached from the empty state by a single `_start_up` call
with two buckets for June 2023. -/
theorem duplicate_bucket_counterexample :
    startUp 6 2023 [some (emptyRec 6), some (emptyRec 6)] =
      .ok [⟨6, 2023, []⟩, ⟨6, 2023, []⟩] ∧
    ¬ uniqueKeys [⟨6, 2023, []⟩, ⟨6, 2023, []⟩] := by
  constructor
  · rfl
  · decide

/-- C4 amended: `add_event`, `remove_event` and `update_event` all
preserve the at-most-one-bucket-per-(month, year) invariant, and
`_start_up` establishes it from the empty state when the decoded
documents carry pairwise distinct (month, year); `_start_up` itself
never deduplicates, so duplicate-keyed documents violate the
invariant (see the counterexample). -/
theorem bucket_keys_unique :
    (∀ (ms : List Month) (e : Events) (ms' : List Month), uniqueKeys ms →
      DataController.add_event ms e = .ok ms' → uniqueKeys ms') ∧
    (∀ (ms : List Month) (e : Events) (ms' : List Month), uniqueKeys ms →
      DataController.remove_event ms e = .ok ms' → uniqueKeys ms') ∧
    (∀ (ms : List Month) (e : Events) (ms' : List Month), uniqueKeys ms →
      DataController.update_event ms e = .ok ms' → uniqueKeys ms') ∧
    (∀ (cm cy : Int) (recs : List (Option Rec)) (ms : List Month),
      ((recs.filterMap id).map fun r => (r.month, r.year)).Nodup →
      startUp cm cy recs = .ok ms → uniqueKeys ms) := by
  refine ⟨?_, ?_, ?_, ?_⟩
  · intro ms e ms' hu h
    rcases ctrl_add_keys e ms ms' h with hsame | ⟨happ, hnone⟩
    · unfold uniqueKeys at hu ⊢
      rw [show ms'.map (fun mo => (mo.month, mo.year)) = keysOf ms' from rfl, hsame]
      exact hu
    · unfold uniqueKeys at hu ⊢
      rw [show ms'.map (fun mo => (mo.month, mo.year)) = keysOf ms' from rfl, happ]
      rw [List.nodup_append]
      refine ⟨hu, List.nodup_singleton _, ?_⟩
      intro k hk hk1
      simp only [List.mem_singleton] at hk1
      obtain ⟨mo, hmo, hmok⟩ := List.mem_map.1 hk
      exact hnone mo hmo (by rw [hk1] at hmok; exact ⟨congrArg Prod.fst hmok, congrArg Prod.snd hmok⟩)
  · intro ms e ms' hu h
    unfold uniqueKeys at hu ⊢
    rw [show ms'.map (fun mo => (mo.month, mo.year)) = keysOf ms' from rfl,
      ctrl_remove_keys e ms ms' h]
    exact hu
  · intro ms e ms' hu h
    unfold uniqueKeys at hu ⊢
    rw [show ms'.map (fun mo => (mo.month, mo.year)) = keysOf ms' from rfl,
      ctrl_update_keys e ms ms' h]
    exact hu
  · intro cm cy recs ms hnd h
    exact (startUpAux_keys cm cy recs 0 ms h).nodup hnd

/-- Witness for `bucket_keys_unique`: adding the Soccer event to the
empty controller, and loading two distinct-keyed documents. -/
theorem bucket_keys_unique_witness :
    DataController.add_event [] sampleEv = .ok [⟨1, 2023, [sampleEv]⟩] ∧
    uniqueKeys [⟨1, 2023, [sampleEv]⟩] ∧
    startUp 6 2023 [some (emptyRec 5), some (emptyRec 6)] =
      .ok [⟨5, 2023, []⟩, ⟨6, 2023, []⟩] ∧
    uniqueKeys [⟨5, 2023, []⟩, ⟨6, 2023, []⟩] :=
  ⟨rfl,
   bucket_keys_unique.1 [] sampleEv [⟨1, 2023, [sampleEv]⟩] (by decide) rfl,
   rfl,
   bucket_keys_unique.2.2.2 6 2023 [some (emptyRec 5), some (emptyRec 6)]
     [⟨5, 2023, []⟩, ⟨6, 2023, []⟩] (by decide) rfl⟩

/-- Witness for `ctrl_remove_event_absent`: removing the stored Soccer
event from a one-bucket state, then querying January 2023. -/
theorem ctrl_remove_event_absent_witness :
    occCount [⟨1, 2023, [sampleEv]⟩] sampleEv ≤ 1 ∧
    DataController.remove_event [⟨1, 2023, [sampleEv]⟩] sampleEv =
      .ok [⟨1, 2023, []⟩] ∧
    ∀ x ∈ DataController.get_events [⟨1, 2023, ([] : List Events)⟩] 1 2023,
      x.oid ≠ sampleEv.oid :=
  ⟨by decide, rfl, fun x hx =>
    (ctrl_remove_event_absent [⟨1, 2023, [sampleEv]⟩] sampleEv [⟨1, 2023, []⟩]
      (by decide) rfl).2 1 2023 x hx⟩

/-- The lexicographic window test of `_start_up` is exactly the
5-month inclusive window around the current month, read on the
normalized month scale `year * 12 + month` (on which month 0 is
December of the previous year and month 13 is January of the next). -/
lemma not_skip_iff_window (cm cy m y : Int) (hcm1 : 1 ≤ cm) (hcm2 : cm ≤ 12)
    (hm1 : 1 ≤ m) (hm2 : m ≤ 12) :
    ¬ skipRec cm cy m y ↔
      (cy * 12 + cm - 2 ≤ y * 12 + m ∧ y * 12 + m ≤ cy * 12 + cm + 2) := by
  unfold skipRec startMonth startYear endMonth endYear pyOr12
  split_ifs <;> omega

/-- A bucket-level add succeeds when the key matches and the id is
fresh, appending the event. -/
lemma month_add_event_ok (mo : Month) (e : Events)
    (hm : e.get_month = mo.month) (hy : e.get_year = mo.year)
    (hany : (mo.events.any fun x => x.data.event_id == e.data.event_id) = false) :
    mo.add_event e = .ok { mo with events := mo.events ++ [e] } := by
  unfold Month.add_event
  rw [if_neg (by simp [hm, hy]), hany]
  simp

/-- The inner `_start_up` loop succeeds and appends the parsed events
whenever every event's serialized date carries the month's key and the
ids (together with those already accumulated) are pairwise distinct. -/
lemma buildMonth_ok :
    ∀ (evs : List RawEvent) (m y : Int) (acc : List Events) (n : Nat),
      (∀ re ∈ evs, re.event_date.m = m ∧ re.event_date.y = y) →
      ((acc.map fun x => x.data.event_id) ++ evs.map fun re => re.event_id).Nodup →
      buildMonth ⟨m, y, acc⟩ evs n =
        .ok (⟨m, y, acc ++ parseEvents n evs⟩, n + evs.length) := by
  intro evs
  induction evs with
  | nil =>
      intro m y acc n _ _
      rw [buildMonth, parseEvents]
      simp
  | cons re rest ih =>
      intro m y acc n hkeys hnodup
      rw [List.map_cons] at hnodup
      rw [List.nodup_append] at hnodup
      obtain ⟨hnd1, hnd2, hdisj⟩ := hnodup
      have hanyf : (acc.any fun x =>
          x.data.event_id == (parseEvent n re).data.event_id) = false := by
        rw [List.any_eq_false]
        intro x hx
        show ¬ (x.data.event_id == re.event_id) = true
        simp only [beq_iff_eq]
        intro hcontra
        exact hdisj (List.mem_map.2 ⟨x, hx, rfl⟩)
          (by rw [hcontra]; exact List.mem_cons_self _ _)
      obtain ⟨hkm, hky⟩ := hkeys re (List.mem_cons_self re rest)
      have hadd : Month.add_event ⟨m, y, acc⟩ (parseEvent n re) =
          .ok ⟨m, y, acc ++ [parseEvent n re]⟩ :=
        month_add_event_ok ⟨m, y, acc⟩ (parseEvent n re)
          (by simp [parseEvent, Events.get_month, parseDate, hkm])
          (by simp [parseEvent, Events.get_year, parseDate, hky])
          hanyf
      rw [buildMonth, hadd]
      simp only [except_bind_ok]
      have hnd' : (((acc ++ [parseEvent n re]).map fun x => x.data.event_id) ++
          rest.map fun re => re.event_id).Nodup := by
        rw [List.map_append, List.append_assoc]
        rw [List.nodup_append]
        refine ⟨hnd1, ?_, ?_⟩
        · show ((parseEvent n re).data.event_id :: rest.map fun re => re.event_id).Nodup
          simpa [parseEvent] using hnd2
        · intro a ha hb
          have hb' : a ∈ re.event_id :: rest.map fun re => re.event_id := by
            simpa [parseEvent] using hb
          exact hdisj ha hb'
      rw [ih m y (acc ++ [parseEvent n re]) (n + 1)
        (fun x hx => hkeys x (List.mem_cons_of_mem re hx)) hnd']
      rw [parseEvents]
      have hl : (acc ++ [parseEvent n re]) ++ parseEvents (n + 1) rest =
          acc ++ (parseEvent n re :: parseEvents (n + 1) rest) := by
        simp
      have hn : n + 1 + rest.length = n + (re :: rest).length := by
        simp
        omega
      rw [hl, hn]

/-- Unfolding of `startUpAux` on a falsy document. -/
lemma startUpAux_cons_none (cm cy : Int) (rest : List (Option Rec)) (n : Nat) :
    startUpAux cm cy (none :: rest) n = startUpAux cm cy rest n := by
  rw [startUpAux]

/-- Unfolding of `startUpAux` on an out-of-window document. -/
lemma startUpAux_cons_skip (cm cy : Int) (r : Rec) (rest : List (Option Rec))
    (n : Nat) (hskip : skipRec cm cy r.month r.year) :
    startUpAux cm cy (some r :: rest) n = startUpAux cm cy rest n := by
  rw [startUpAux, if_pos hskip]

/-- Unfolding of `startUpAux` on an in-window document without an
`events` key: the `KeyError` aborts the load. -/
lemma startUpAux_cons_no_events (cm cy : Int) (r : Rec) (rest : List (Option Rec))
    (n : Nat) (hskip : ¬ skipRec cm cy r.month r.year) (hevs : r.events = none) :
    startUpAux cm cy (some r :: rest) n = .error .keyError := by
  rw [startUpAux, if_neg hskip, hevs]

/-- Unfolding of `startUpAux` on an in-window document with an
`events` sequence. -/
lemma startUpAux_cons_events (cm cy : Int) (r : Rec) (evs : List RawEvent)
    (rest : List (Option Rec)) (n : Nat)
    (hskip : ¬ skipRec cm cy r.month r.year) (hevs : r.events = some evs) :
    startUpAux cm cy (some r :: rest) n =
      (buildMonth ⟨r.month, r.year, []⟩ evs n) >>= fun p =>
        (startUpAux cm cy rest p.2) >>= fun ms => pure (p.1 :: ms) := by
  rw [startUpAux, if_neg hskip, hevs]

/-- Over well-formed documents the load never raises, and it keeps
exactly the documents the window test keeps, in order. -/
lemma startUpAux_wf (cm cy : Int) :
    ∀ (recs : List Rec) (n : Nat), (∀ r ∈ recs, wfRec r) →
      ∃ ms, startUpAux cm cy (recs.map some) n = .ok ms ∧
        keysOf ms = ((recs.filter fun r => decide (¬ skipRec cm cy r.month r.year)).map
          fun r => (r.month, r.year)) := by
  intro recs
  induction recs with
  | nil => intro n _; exact ⟨[], rfl, rfl⟩
  | cons r rest ih =>
      intro n hwf
      obtain ⟨evs, hevs, hkeys, hnd⟩ := hwf r (List.mem_cons_self r rest)
      by_cases hskip : skipRec cm cy r.month r.year
      · obtain ⟨ms, h1, h2⟩ := ih n (fun x hx => hwf x (List.mem_cons_of_mem r hx))
        refine ⟨ms, ?_, ?_⟩
        · rw [List.map_cons, startUpAux_cons_skip cm cy r _ n hskip]
          exact h1
        · rw [h2, List.filter_cons, if_neg (by simp [hskip])]
      · obtain ⟨ms, h1, h2⟩ := ih (n + evs.length)
          (fun x hx => hwf x (List.mem_cons_of_mem r hx))
        refine ⟨⟨r.month, r.year, parseEvents n evs⟩ :: ms, ?_, ?_⟩
        · rw [List.map_cons, startUpAux_cons_events cm cy r evs _ n hskip hevs]
          rw [buildMonth_ok evs r.month r.year [] n hkeys (by simpa using hnd)]
          simp only [except_bind_ok]
          rw [h1]
          rfl
        · rw [List.filter_cons, if_pos (by simpa using hskip), List.map_cons]
          show (r.month, r.year) :: keysOf ms = _
          rw [h2]

/-- C1: over well-formed documents (each with an `events` sequence
whose events match the document's key and have distinct ids, months in
1..12), `_start_up` loads exactly the documents whose key passes the
window test, and that test holds precisely when `year*12 + month` lies
in the inclusive 5-month window `[cy*12 + cm - 2, cy*12 + cm + 2]`
around the current date — the wrap-around window of the claim. -/
theorem startUp_admits_window (cm cy : Int) (hcm1 : 1 ≤ cm) (hcm2 : cm ≤ 12)
    (recs : List Rec) (hwf : ∀ r ∈ recs, wfRec r) :
    ∃ ms, startUp cm cy (recs.map some) = .ok ms ∧
      keysOf ms = ((recs.filter fun r => decide (¬ skipRec cm cy r.month r.year)).map
        fun r => (r.month, r.year)) ∧
      (∀ r ∈ recs, 1 ≤ r.month → r.month ≤ 12 →
        (¬ skipRec cm cy r.month r.year ↔
          cy * 12 + cm - 2 ≤ r.year * 12 + r.month ∧
          r.year * 12 + r.month ≤ cy * 12 + cm + 2)) := by
  obtain ⟨ms, h1, h2⟩ := startUpAux_wf cm cy recs 0 hwf
  exact ⟨ms, h1, h2, fun r _ hm1 hm2 =>
    not_skip_iff_window cm cy r.month r.year hcm1 hcm2 hm1 hm2⟩

/-- Witness for `startUp_admits_window`: documents for the 12 months
of 2023 with current date June 2023; exactly the five months April
through August are admitted. -/
theorem startUp_admits_window_witness :
    ((recs12.filter fun r => decide (¬ skipRec 6 2023 r.month r.year)).map
        fun r => (r.month, r.year)) =
      [(4, 2023), (5, 2023), (6, 2023), (7, 2023), (8, 2023)] ∧
    ∃ ms, startUp 6 2023 (recs12.map some) = .ok ms ∧
      keysOf ms = ((recs12.filter fun r => decide (¬ skipRec 6 2023 r.month r.year)).map
        fun r => (r.month, r.year)) ∧
      (∀ r ∈ recs12, 1 ≤ r.month → r.month ≤ 12 →
        (¬ skipRec 6 2023 r.month r.year ↔
          2023 * 12 + 6 - 2 ≤ r.year * 12 + r.month ∧
          r.year * 12 + r.month ≤ 2023 * 12 + 6 + 2)) := by
  constructor
  · decide
  · exact startUp_admits_window 6 2023 (by decide) (by decide) recs12
      (by
        intro r hr
        simp only [recs12, emptyRec, List.mem_cons, List.not_mem_nil, or_false] at hr
        rcases hr with rfl | rfl | rfl | rfl | rfl | rfl | rfl | rfl | rfl | rfl | rfl | rfl <;>
          exact ⟨[], rfl, by simp, List.nodup_nil⟩)

/-- C9 counterexample: an in-window document with no `events` key is
not skipped — `data["events"]` raises `KeyError` and the whole load
aborts (there is no `try`/`except` in `_start_up`), even though a
further well-formed document was still pending. -/
theorem startup_missing_events_aborts :
    ¬ skipRec 6 2023 noEventsRec.month noEventsRec.year ∧
    startUp 6 2023 [some noEventsRec, some (emptyRec 5)] = .error .keyError :=
  ⟨by decide, rfl⟩

/-- C9 amended: the only documents `_start_up` skips are falsy ones
(`if not data`) and out-of-window ones; an in-window document without
an `events` key raises `KeyError`, aborting the whole load (and any
parse failure likewise propagates — there is no per-record error
handling). -/
theorem startup_per_record_behaviour :
    (∀ (cm cy : Int) (rest : List (Option Rec)) (n : Nat),
      startUpAux cm cy (none :: rest) n = startUpAux cm cy rest n) ∧
    (∀ (cm cy : Int) (r : Rec) (rest : List (Option Rec)) (n : Nat),
      skipRec cm cy r.month r.year →
      startUpAux cm cy (some r :: rest) n = startUpAux cm cy rest n) ∧
    (∀ (cm cy : Int) (r : Rec) (rest : List (Option Rec)) (n : Nat),
      ¬ skipRec cm cy r.month r.year → r.events = none →
      startUpAux cm cy (some r :: rest) n = .error .keyError) :=
  ⟨startUpAux_cons_none, startUpAux_cons_skip, startUpAux_cons_no_events⟩

/-- Witness for `startup_per_record_behaviour`: a falsy document, an
out-of-window January document under a June window, and the
`events`-less June document. -/
theorem startup_per_record_behaviour_witness :
    startUpAux 6 2023 [none, some (emptyRec 6)] 0 =
      startUpAux 6 2023 [some (emptyRec 6)] 0 ∧
    skipRec 6 2023 (emptyRec 1).month (emptyRec 1).year ∧
    startUpAux 6 2023 [some (emptyRec 1), some (emptyRec 6)] 0 =
      startUpAux 6 2023 [some (emptyRec 6)] 0 ∧
    ¬ skipRec 6 2023 noEventsRec.month noEventsRec.year ∧
    startUpAux 6 2023 [some noEventsRec] 0 = .error .keyError :=
  ⟨startup_per_record_behaviour.1 6 2023 [some (emptyRec 6)] 0,
   by decide,
   startup_per_record_behaviour.2.1 6 2023 (emptyRec 1) [some (emptyRec 6)] 0 (by decide),
   by decide,
   startup_per_record_behaviour.2.2 6 2023 noEventsRec [] 0 (by decide) rfl⟩

/-- C3 counterexample: saving and re-loading the demo Soccer event
(whose `event_time` is the full datetime 2023-01-15 10:00) yields an
event whose `event_time` is 1900-01-01 10:00 — `shut_down` renders
times as `"%H:%M"`, so `strptime` restores them on the default date.
The claim's "every field identical" fails at `event_time`. -/
theorem roundtrip_time_not_identical :
    startUp 1 2023 ((shutDown rtState).map some) =
      .ok [⟨1, 2023, [⟨0, sampleDataNorm⟩]⟩] ∧
    sampleDataNorm.event_time ≠ sampleData.event_time :=
  ⟨rfl, by decide⟩

/-- Serialized dates parse back to themselves when already at
midnight. -/
lemma parseDate_serDate (d : DateTime) (h : normDate d) :
    parseDate (serDate d) = d := by
  obtain ⟨h1, h2, h3⟩ := h
  cases d
  simp_all [parseDate, serDate]

/-- Serialized times parse back to themselves when already on the
`strptime` default date with zero seconds. -/
lemma parseTime_serTime (d : DateTime) (h : normTime d) :
    parseTime (serTime d) = d := by
  obtain ⟨h1, h2, h3, h4⟩ := h
  cases d
  simp_all [parseTime, serTime]

/-- Serialized reminders parse back to themselves when already at
minute precision. -/
lemma parseRem_serRem (d : DateTime) (h : normRem d) :
    parseRem (serRem d) = d := by
  unfold normRem at h
  cases d
  simp_all [parseRem, serRem]

/-- One event survives the serialize/parse cycle with identical
fields, provided its datetimes are already in persistable precision. -/
lemma parse_ser_event (n : Nat) (e : Events) (h : normEvent e.data) :
    (parseEvent n (serEvent e)).data = e.data := by
  obtain ⟨o, d⟩ := e
  obtain ⟨hd, ht, hr⟩ := h
  cases d with
  | mk id nm ds dt tm loc ty st pr no rm =>
      simp only [parseEvent, serEvent, EventData.mk.injEq]
      refine ⟨trivial, trivial, trivial, parseDate_serDate dt hd, ?_, trivial, trivial,
        trivial, trivial, trivial, ?_⟩
      · cases tm with
        | none => rfl
        | some t => simp [parseTime_serTime t (ht t rfl)]
      · cases rm with
        | none => rfl
        | some r => simp [parseRem_serRem r (hr r rfl)]

/-- A whole event list survives the serialize/parse cycle, data-wise. -/
lemma parseEvents_ser :
    ∀ (evs : List Events) (n : Nat), (∀ x ∈ evs, normEvent x.data) →
      (parseEvents n (evs.map serEvent)).map (fun x => x.data) =
        evs.map fun x => x.data := by
  intro evs
  induction evs with
  | nil => intro n _; rfl
  | cons x xs ih =>
      intro n h
      rw [List.map_cons, parseEvents, List.map_cons, List.map_cons]
      rw [parse_ser_event n x (h x (List.mem_cons_self x xs)),
        ih (n + 1) (fun y hy => h y (List.mem_cons_of_mem x hy))]

/-- The save/load round trip over `startUpAux` with an arbitrary
identity supply. -/
lemma roundtrip_aux (cm cy : Int) :
    ∀ (ms : List Month) (n : Nat),
      (∀ mo ∈ ms, ¬ skipRec cm cy mo.month mo.year) →
      (∀ mo ∈ ms, wfMonth mo) →
      (∀ mo ∈ ms, ∀ x ∈ mo.events, normEvent x.data) →
      ∃ ms', startUpAux cm cy ((shutDown ms).map some) n = .ok ms' ∧
        ms'.map monthData = ms.map monthData := by
  intro ms
  induction ms with
  | nil => intro n _ _ _; exact ⟨[], rfl, rfl⟩
  | cons mo rest ih =>
      intro n hwin hwf hnorm
      obtain ⟨ms2, h1, h2⟩ := ih (n + mo.events.length)
        (fun x hx => hwin x (List.mem_cons_of_mem mo hx))
        (fun x hx => hwf x (List.mem_cons_of_mem mo hx))
        (fun x hx => hnorm x (List.mem_cons_of_mem mo hx))
      obtain ⟨hkeys, hnd⟩ := hwf mo (List.mem_cons_self mo rest)
      have hk : ∀ re ∈ mo.events.map serEvent,
          re.event_date.m = mo.month ∧ re.event_date.y = mo.year := by
        intro re hre
        obtain ⟨x, hx, rfl⟩ := List.mem_map.1 hre
        obtain ⟨hxm, hxy⟩ := hkeys x hx
        exact ⟨by simpa [serEvent, serDate, Events.get_month] using hxm,
          by simpa [serEvent, serDate, Events.get_year] using hxy⟩
      have hn : ((([] : List Events).map fun x => x.data.event_id) ++
          (mo.events.map serEvent).map fun re => re.event_id).Nodup := by
        simpa [List.map_map, Function.comp, serEvent] using hnd
      refine ⟨⟨mo.month, mo.year, parseEvents n (mo.events.map serEvent)⟩ :: ms2, ?_, ?_⟩
      · have hsd : (shutDown (mo :: rest)).map some =
            some (serMonth mo) :: (shutDown rest).map some := by
          simp [shutDown]
        rw [hsd]
        rw [startUpAux_cons_events cm cy (serMonth mo) (mo.events.map serEvent) _ n
          (hwin mo (List.mem_cons_self mo rest)) rfl]
        simp only [serMonth]
        rw [buildMonth_ok (mo.events.map serEvent) mo.month mo.year [] n hk hn]
        simp only [except_bind_ok]
        rw [List.length_map, h1]
        rfl
      · rw [List.map_cons, List.map_cons, h2]
        show (mo.month, mo.year,
          (parseEvents n (mo.events.map serEvent)).map fun x => x.data) :: _ = _
        rw [parseEvents_ser mo.events n (hnorm mo (List.mem_cons_self mo rest))]
        rfl

/-- C3 amended: `shut_down` followed by `_start_up` (under a current
date whose window covers every saved month, on buckets satisfying the
bucket invariant) reproduces the same buckets with the same events,
field for field — provided every datetime field was already at the
precision the persistence format renders (`event_date` at midnight,
`event_time` on 1900-01-01 with zero seconds, `event_reminder` at
minute precision).  Without that proviso the fields are the
serialized truncations instead (see the counterexample).  The
`uniqueKeys` and month-range hypotheses keep the composition inside
the regime where the modelled document list is the stored state:
same-keyed buckets would overwrite each other's file in `shut_down`
(losing all but the last), and a month outside 1..12 would make the
file-name computation `date(1900, month, 1)` raise. -/
theorem save_load_roundtrip (cm cy : Int) (ms : List Month)
    (huniq : uniqueKeys ms)
    (hrange : ∀ mo ∈ ms, 1 ≤ mo.month ∧ mo.month ≤ 12)
    (hwin : ∀ mo ∈ ms, ¬ skipRec cm cy mo.month mo.year)
    (hwf : ∀ mo ∈ ms, wfMonth mo)
    (hnorm : ∀ mo ∈ ms, ∀ x ∈ mo.events, normEvent x.data) :
    ∃ ms', startUp cm cy ((shutDown ms).map some) = .ok ms' ∧
      ms'.map monthData = ms.map monthData :=
  roundtrip_aux cm cy ms 0 hwin hwf hnorm

/-- Witness for `save_load_roundtrip`: the normalized Soccer event in
a January 2023 bucket, saved and re-loaded under current date January
2023. -/
theorem save_load_roundtrip_witness :
    uniqueKeys normState ∧
    (∀ mo ∈ normState, ¬ skipRec 1 2023 mo.month mo.year) ∧
    ∃ ms', startUp 1 2023 ((shutDown normState).map some) = .ok ms' ∧
      ms'.map monthData = normState.map monthData :=
  ⟨by decide, by decide, save_load_roundtrip 1 2023 normState (by decide) (by decide)
    (by decide) (by decide) (by decide)⟩
